import Mathlib

/-!
Verification of the SU3 binary codec (nom based deserialiser in de.rs,
cookie_factory based serialiser in ser.rs, data model and enums from lib.rs).
Byte buffers are modelled as lists of natural numbers; every multi byte
integer is combined and split exactly as the big endian readers and writers
of the source do, with explicit mod 2 pow w arithmetic where the source
truncates machine integers.
-/

/-- Byte buffers: lists of natural numbers standing for u8 values. -/
abbrev Bytes := List Nat

/-- The nom error kinds produced by the parsers the decoder uses:
Tag from the magic matcher, Eof from take and the big endian integer
readers, Digit from the closed set enum conversions in macros.rs. -/
inductive ErrorKind where
  | Tag
  | Eof
  | Digit
deriving DecidableEq

/-- A nom style error value: the remaining input at the failure point
together with the error kind. -/
structure NomError where
  input : Bytes
  code : ErrorKind
deriving DecidableEq

/-- The nom Err wrapper: recoverable Error or unrecoverable Failure. -/
inductive NomErr where
  | Error (e : NomError)
  | Failure (e : NomError)
deriving DecidableEq

instance {ε α : Type} [DecidableEq ε] [DecidableEq α] :
    DecidableEq (Except ε α) := fun x y =>
  match x, y with
  | .ok a, .ok b =>
    if h : a = b then isTrue (by rw [h]) else isFalse (by simp [h])
  | .error a, .error b =>
    if h : a = b then isTrue (by rw [h]) else isFalse (by simp [h])
  | .ok _, .error _ => isFalse (by simp)
  | .error _, .ok _ => isFalse (by simp)

/-- Result type of a nom parser over the byte list model. -/
abbrev IResult (α : Type) := Except NomErr (Bytes × α)

/-- The 6 byte magic literal I2Psu3. -/
def MAGIC_BYTES : Bytes := [73, 50, 80, 115, 117, 51]

/-- The complete tag parser: compares the front of the input against the
tag and fails with kind Tag on mismatch or on input shorter than the tag. -/
def tagP (t : Bytes) (i : Bytes) : IResult Bytes :=
  if i.take t.length = t then .ok (i.drop t.length, i.take t.length)
  else .error (.Error ⟨i, .Tag⟩)

/-- The complete take parser: returns exactly n bytes or fails with kind
Eof when the input is shorter than n. -/
def takeP (n : Nat) (i : Bytes) : IResult Bytes :=
  if n ≤ i.length then .ok (i.drop n, i.take n)
  else .error (.Error ⟨i, .Eof⟩)

/-- Big endian recombination of a byte list, as the nom uint readers do. -/
def bval (bs : Bytes) : Nat := bs.foldl (fun acc b => acc * 256 + b) 0

/-- Generic big endian unsigned integer reader over n bytes, the shape
nom uses for its complete be_u8, be_u16 and be_u64 parsers. -/
def beBytes (n : Nat) (i : Bytes) : IResult Nat :=
  match takeP n i with
  | .error e => .error e
  | .ok (r, bs) => .ok (r, bval bs)

/-- The nom be_u8 reader. -/
def be_u8 : Bytes → IResult Nat := beBytes 1

/-- The nom be_u16 reader. -/
def be_u16 : Bytes → IResult Nat := beBytes 2

/-- The nom be_u64 reader. -/
def be_u64 : Bytes → IResult Nat := beBytes 8

/-- Signature type enum from lib.rs with wire codes 0 to 6 and 8. -/
inductive SignatureType where
  | DsaSha1
  | EcdsaSha256P256
  | EcdsaSha384P384
  | EcdsaSha512P521
  | RsaSha2562048
  | RsaSha3843072
  | RsaSha5124096
  | EddsaSha512Ed25519ph
deriving DecidableEq

/-- Wire code of a signature type, the enum discriminants of lib.rs. -/
def SignatureType.toNum : SignatureType → Nat
  | .DsaSha1 => 0
  | .EcdsaSha256P256 => 1
  | .EcdsaSha384P384 => 2
  | .EcdsaSha512P521 => 3
  | .RsaSha2562048 => 4
  | .RsaSha3843072 => 5
  | .RsaSha5124096 => 6
  | .EddsaSha512Ed25519ph => 8

/-- Signature length table from SignatureType::length in lib.rs. -/
def SignatureType.length : SignatureType → Nat
  | .DsaSha1 => 40
  | .EcdsaSha256P256 => 64
  | .EddsaSha512Ed25519ph => 64
  | .EcdsaSha384P384 => 96
  | .EcdsaSha512P521 => 132
  | .RsaSha2562048 => 256
  | .RsaSha3843072 => 384
  | .RsaSha5124096 => 512

/-- Closed set conversion for SignatureType generated by the
try_from_number macro in macros.rs: an unassigned code is a hard
Failure with kind Digit carrying the empty static slice. -/
def SignatureType.tryFromNumber (n : Nat) : Except NomErr SignatureType :=
  match n with
  | 0 => .ok .DsaSha1
  | 1 => .ok .EcdsaSha256P256
  | 2 => .ok .EcdsaSha384P384
  | 3 => .ok .EcdsaSha512P521
  | 4 => .ok .RsaSha2562048
  | 5 => .ok .RsaSha3843072
  | 6 => .ok .RsaSha5124096
  | 8 => .ok .EddsaSha512Ed25519ph
  | _ => .error (.Failure ⟨[], .Digit⟩)

/-- File type enum from lib.rs with wire codes 0 to 6. -/
inductive FileType where
  | Zip
  | Xml
  | Html
  | XmlGz
  | TxtGz
  | Dmg
  | Exe
deriving DecidableEq

/-- Wire code of a file type. -/
def FileType.toNum : FileType → Nat
  | .Zip => 0
  | .Xml => 1
  | .Html => 2
  | .XmlGz => 3
  | .TxtGz => 4
  | .Dmg => 5
  | .Exe => 6

/-- Closed set conversion for FileType from the try_from_number macro. -/
def FileType.tryFromNumber (n : Nat) : Except NomErr FileType :=
  match n with
  | 0 => .ok .Zip
  | 1 => .ok .Xml
  | 2 => .ok .Html
  | 3 => .ok .XmlGz
  | 4 => .ok .TxtGz
  | 5 => .ok .Dmg
  | 6 => .ok .Exe
  | _ => .error (.Failure ⟨[], .Digit⟩)

/-- Content type enum from lib.rs with wire codes 0 to 5. -/
inductive ContentType where
  | Unknown
  | RouterUpdate
  | Plugin
  | ReseedData
  | NewsFeed
  | BlocklistFeed
deriving DecidableEq

/-- Wire code of a content type. -/
def ContentType.toNum : ContentType → Nat
  | .Unknown => 0
  | .RouterUpdate => 1
  | .Plugin => 2
  | .ReseedData => 3
  | .NewsFeed => 4
  | .BlocklistFeed => 5

/-- Closed set conversion for ContentType from the try_from_number macro. -/
def ContentType.tryFromNumber (n : Nat) : Except NomErr ContentType :=
  match n with
  | 0 => .ok .Unknown
  | 1 => .ok .RouterUpdate
  | 2 => .ok .Plugin
  | 3 => .ok .ReseedData
  | 4 => .ok .NewsFeed
  | 5 => .ok .BlocklistFeed
  | _ => .error (.Failure ⟨[], .Digit⟩)

/-- The Package record: the typed SU3 representation constructed by the
deserialiser in de.rs, holding the three enums and the four raw byte
regions. The numeric length header fields are not stored. -/
structure Su3 where
  signature_type : SignatureType
  file_type : FileType
  content_type : ContentType
  raw_version : Bytes
  raw_signer_id : Bytes
  raw_content : Bytes
  raw_signature : Bytes
deriving DecidableEq

/-- The deserialiser of de.rs: the first nom tuple reads the fixed 40 byte
header (magic, skipped unused bytes, big endian length and code fields),
the second tuple takes the four variable regions sized by the header
fields just read, then the three enum codes are converted and the Su3
record is returned together with the unconsumed remainder. -/
def deserialise (data : Bytes) : IResult Su3 :=
  (tagP MAGIC_BYTES data).bind fun s0 =>
  (be_u8 s0.1).bind fun s1 =>
  (be_u8 s1.1).bind fun s2 =>
  (be_u16 s2.1).bind fun s3 =>
  (be_u16 s3.1).bind fun s4 =>
  (be_u8 s4.1).bind fun s5 =>
  (be_u8 s5.1).bind fun s6 =>
  (be_u8 s6.1).bind fun s7 =>
  (be_u8 s7.1).bind fun s8 =>
  (be_u64 s8.1).bind fun s9 =>
  (be_u8 s9.1).bind fun s10 =>
  (be_u8 s10.1).bind fun s11 =>
  (be_u8 s11.1).bind fun s12 =>
  (be_u8 s12.1).bind fun s13 =>
  (takeP 12 s13.1).bind fun s14 =>
  (takeP s6.2 s14.1).bind fun v =>
  (takeP s8.2 v.1).bind fun sid =>
  (takeP s9.2 sid.1).bind fun cont =>
  (takeP s4.2 cont.1).bind fun sig =>
  (SignatureType.tryFromNumber s3.2).bind fun st =>
  (FileType.tryFromNumber s11.2).bind fun ft =>
  (ContentType.tryFromNumber s13.2).bind fun ct =>
  .ok (sig.1, ⟨st, ft, ct, v.2, sid.2, cont.2, sig.2⟩)

/-- Big endian 16 bit writer of cookie_factory. -/
def u16be (v : Nat) : Bytes := [v / 256 % 256, v % 256]

/-- Big endian 64 bit writer of cookie_factory. -/
def u64be (v : Nat) : Bytes :=
  [v / 256 ^ 7 % 256, v / 256 ^ 6 % 256, v / 256 ^ 5 % 256, v / 256 ^ 4 % 256,
   v / 256 ^ 3 % 256, v / 256 ^ 2 % 256, v / 256 % 256, v % 256]

/-- The byte image written by the serialiser tuple in ser.rs: magic, two
zero bytes, the signature type code, the canonical signature length from
the table, the length fields derived from the stored slices (u8 casts
truncate mod 256, the usize to u64 cast truncates mod 2 pow 64), the two
one byte enum codes, twelve zero bytes, then the four raw regions
verbatim. -/
def su3Body (su3 : Su3) : Bytes :=
  MAGIC_BYTES ++ [0, 0] ++ u16be su3.signature_type.toNum
    ++ u16be su3.signature_type.length
    ++ [0, su3.raw_version.length % 256, 0, su3.raw_signer_id.length % 256]
    ++ u64be (su3.raw_content.length % 2 ^ 64)
    ++ [0, su3.file_type.toNum, 0, su3.content_type.toNum]
    ++ List.replicate 12 0
    ++ su3.raw_version ++ su3.raw_signer_id ++ su3.raw_content
    ++ su3.raw_signature

/-- The cookie_factory error type as used by ser.rs, which reports an
undersized version field as CustomError 1. -/
inductive GenError where
  | CustomError (code : Nat)
deriving DecidableEq

/-- The serialiser closure of ser.rs as an explicit state transformer on
the output sink: it validates the version length before any write, so on
failure the sink is returned untouched, and on success the full byte image
is appended to the sink. -/
def serialise (su3 : Su3) (ctx : Bytes) : Bytes × Option GenError :=
  if su3.raw_version.length < 16 then (ctx, some (.CustomError 1))
  else (ctx ++ su3Body su3, none)

/-- The Cow values returned by the decompressed_content accessor:
a borrowed view of the stored content or an owned decompressed buffer. -/
inductive Cow where
  | Borrowed (data : Bytes)
  | Owned (data : Bytes)
deriving DecidableEq

/-- The decompressed_content accessor of lib.rs, with the external gzip
decoder passed in as a fallible collaborator function: only the TxtGz and
XmlGz file types take the decompression branch, every other file type
returns the stored content as a borrowed view. -/
def decompressed_content {ε : Type} (gunzip : Bytes → Except ε Bytes)
    (su3 : Su3) : Except ε Cow :=
  match su3.file_type with
  | .TxtGz | .XmlGz =>
    match gunzip su3.raw_content with
    | .error e => .error e
    | .ok d => .ok (.Owned d)
  | _ => .ok (.Borrowed su3.raw_content)

/-- Reader view of the signature type code field at offset 8. -/
def signatureTypeCodeOf (b : Bytes) : Nat := bval ((b.drop 8).take 2)

/-- Reader view of the signature length field at offset 10. -/
def signatureLengthOf (b : Bytes) : Nat := bval ((b.drop 10).take 2)

/-- Reader view of the version length field at offset 13. -/
def versionLengthOf (b : Bytes) : Nat := bval ((b.drop 13).take 1)

/-- Reader view of the signer id length field at offset 15. -/
def signerIdLengthOf (b : Bytes) : Nat := bval ((b.drop 15).take 1)

/-- Reader view of the 64 bit content length field at offset 16. -/
def contentLengthOf (b : Bytes) : Nat := bval ((b.drop 16).take 8)

/-- Reader view of the file type code field at offset 25. -/
def fileTypeCodeOf (b : Bytes) : Nat := bval ((b.drop 25).take 1)

/-- Reader view of the content type code field at offset 27. -/
def contentTypeCodeOf (b : Bytes) : Nat := bval ((b.drop 27).take 1)

/-- Total byte count a successful parse consumes: the 40 byte fixed header
plus the four variable region lengths announced by the header fields. -/
def needed (b : Bytes) : Nat :=
  40 + versionLengthOf b + signerIdLengthOf b + contentLengthOf b
    + signatureLengthOf b

/-- Offsets of the header bytes the deserialiser skips and discards. -/
def unusedOffset (i : Nat) : Prop :=
  i = 6 ∨ i = 7 ∨ i = 12 ∨ i = 14 ∨ i = 24 ∨ i = 26 ∨ (28 ≤ i ∧ i < 40)

/-- Error kind of a parse result, if it is an error. -/
def resultKind : IResult Su3 → Option ErrorKind
  | .ok _ => none
  | .error (.Error e) => some e.code
  | .error (.Failure e) => some e.code

/-- A fixed header with the wire layout of the format, taking the raw
field values to place in each slot: shared byte level description of the
header part of both the serialiser output and handcrafted wire buffers. -/
def mkHeader (stc gl vl sl cl ftc ctc : Nat) : Bytes :=
  MAGIC_BYTES ++ [0, 0] ++ u16be stc ++ u16be gl ++ [0, vl, 0, sl]
    ++ u64be cl ++ [0, ftc, 0, ctc] ++ List.replicate 12 0

/-- An arbitrary wire buffer with the header layout of the format: raw
numeric codes for the three enums, length fields taken from the supplied
regions, used to state claims about buffers the encoder cannot produce. -/
def mkRaw (stc ftc ctc : Nat) (v sid cont sig : Bytes) : Bytes :=
  MAGIC_BYTES ++ [0, 0] ++ u16be stc ++ u16be sig.length
    ++ [0, v.length % 256, 0, sid.length % 256]
    ++ u64be (cont.length % 2 ^ 64)
    ++ [0, ftc % 256, 0, ctc % 256]
    ++ List.replicate 12 0
    ++ v ++ sid ++ cont ++ sig

/-- A sample package whose signature region has the canonical DSA length. -/
def sampleSu3 : Su3 :=
  ⟨.DsaSha1, .Zip, .Unknown, List.replicate 16 48, [109, 101],
   [1, 2, 3], List.replicate 40 7⟩

/-- A sample package with an empty signature region, mismatching the
40 byte table value of its declared DsaSha1 algorithm. -/
def mismatchSu3 : Su3 :=
  ⟨.DsaSha1, .Zip, .Unknown, List.replicate 16 48, [], [], []⟩

/-- A sample package whose version region is shorter than 16 bytes. -/
def shortVersionSu3 : Su3 :=
  ⟨.EddsaSha512Ed25519ph, .Exe, .NewsFeed, [4, 5], [6], [7, 8],
   List.replicate 64 9⟩

/-- A minimal 40 byte buffer: all length fields zero, all codes zero. -/
def minimalBuf : Bytes := mkRaw 0 0 0 [] [] [] []

/-- The minimal buffer with every unused header byte (offsets 6, 7, 12,
14, 24, 26 and 28 to 39) replaced by the value 9. -/
def unusedVariantBuf : Bytes :=
  [73, 50, 80, 115, 117, 51, 9, 9, 0, 0, 0, 0, 9, 0, 9, 0,
   0, 0, 0, 0, 0, 0, 0, 0, 9, 0, 9, 0, 9, 9, 9, 9, 9, 9, 9, 9, 9, 9, 9, 9]

theorem except_bind_ok {ε α β : Type} (a : α) (f : α → Except ε β) :
    (Except.ok a : Except ε α).bind f = f a := rfl

theorem except_bind_error {ε α β : Type} (e : ε) (f : α → Except ε β) :
    (Except.error e : Except ε α).bind f = .error e := rfl

theorem tagP_magic (b : Bytes) :
    tagP MAGIC_BYTES b =
      if b.take 6 = MAGIC_BYTES then .ok (b.drop 6, b.take 6)
      else .error (.Error ⟨b, .Tag⟩) := rfl

theorem takeP_drop (b : Bytes) (k n : Nat) :
    takeP n (b.drop k) =
      if n ≤ b.length - k then .ok (b.drop (k + n), (b.drop k).take n)
      else .error (.Error ⟨b.drop k, .Eof⟩) := by
  unfold takeP
  rw [List.length_drop, List.drop_drop]

theorem beBytes_drop (b : Bytes) (k n : Nat) :
    beBytes n (b.drop k) =
      if n ≤ b.length - k then .ok (b.drop (k + n), bval ((b.drop k).take n))
      else .error (.Error ⟨b.drop k, .Eof⟩) := by
  unfold beBytes
  rw [takeP_drop]
  by_cases h : n ≤ b.length - k
  · rw [if_pos h, if_pos h]
  · rw [if_neg h, if_neg h]

theorem deserialise_ok_iff (b rest : Bytes) (su3 : Su3) :
    deserialise b = .ok (rest, su3) ↔
      (b.take 6 = MAGIC_BYTES ∧ needed b ≤ b.length ∧
       SignatureType.tryFromNumber (signatureTypeCodeOf b)
         = .ok su3.signature_type ∧
       FileType.tryFromNumber (fileTypeCodeOf b) = .ok su3.file_type ∧
       ContentType.tryFromNumber (contentTypeCodeOf b)
         = .ok su3.content_type ∧
       su3.raw_version = (b.drop 40).take (versionLengthOf b) ∧
       su3.raw_signer_id
         = (b.drop (40 + versionLengthOf b)).take (signerIdLengthOf b) ∧
       su3.raw_content
         = (b.drop (40 + versionLengthOf b + signerIdLengthOf b)).take
             (contentLengthOf b) ∧
       su3.raw_signature
         = (b.drop (40 + versionLengthOf b + signerIdLengthOf b
             + contentLengthOf b)).take (signatureLengthOf b) ∧
       rest = b.drop (needed b)) := by
  obtain ⟨st0, ft0, ct0, rv, rs, rc, rg⟩ := su3
  unfold deserialise
  rw [tagP_magic]
  by_cases h0 : b.take 6 = MAGIC_BYTES
  case neg =>
    rw [if_neg h0]
    exact iff_of_false (fun h => Except.noConfusion h) (fun h => h0 h.1)
  rw [if_pos h0]
  simp only [except_bind_ok, be_u8, be_u16, be_u64]
  rw [beBytes_drop]
  by_cases c1 : 1 ≤ b.length - 6
  case neg =>
    rw [if_neg c1]
    refine iff_of_false (fun hx => Except.noConfusion hx) (fun h => ?_)
    have h2 := h.2.1
    simp only [needed] at h2
    omega
  rw [if_pos c1]
  simp only [except_bind_ok]
  rw [beBytes_drop]
  by_cases c2 : 1 ≤ b.length - (6 + 1)
  case neg =>
    rw [if_neg c2]
    refine iff_of_false (fun hx => Except.noConfusion hx) (fun h => ?_)
    have h2 := h.2.1
    simp only [needed] at h2
    omega
  rw [if_pos c2]
  simp only [except_bind_ok]
  rw [beBytes_drop]
  by_cases c3 : 2 ≤ b.length - (6 + 1 + 1)
  case neg =>
    rw [if_neg c3]
    refine iff_of_false (fun hx => Except.noConfusion hx) (fun h => ?_)
    have h2 := h.2.1
    simp only [needed] at h2
    omega
  rw [if_pos c3]
  simp only [except_bind_ok]
  rw [beBytes_drop]
  by_cases c4 : 2 ≤ b.length - (6 + 1 + 1 + 2)
  case neg =>
    rw [if_neg c4]
    refine iff_of_false (fun hx => Except.noConfusion hx) (fun h => ?_)
    have h2 := h.2.1
    simp only [needed] at h2
    omega
  rw [if_pos c4]
  simp only [except_bind_ok]
  rw [beBytes_drop]
  by_cases c5 : 1 ≤ b.length - (6 + 1 + 1 + 2 + 2)
  case neg =>
    rw [if_neg c5]
    refine iff_of_false (fun hx => Except.noConfusion hx) (fun h => ?_)
    have h2 := h.2.1
    simp only [needed] at h2
    omega
  rw [if_pos c5]
  simp only [except_bind_ok]
  rw [beBytes_drop]
  by_cases c6 : 1 ≤ b.length - (6 + 1 + 1 + 2 + 2 + 1)
  case neg =>
    rw [if_neg c6]
    refine iff_of_false (fun hx => Except.noConfusion hx) (fun h => ?_)
    have h2 := h.2.1
    simp only [needed] at h2
    omega
  rw [if_pos c6]
  simp only [except_bind_ok]
  rw [beBytes_drop]
  by_cases c7 : 1 ≤ b.length - (6 + 1 + 1 + 2 + 2 + 1 + 1)
  case neg =>
    rw [if_neg c7]
    refine iff_of_false (fun hx => Except.noConfusion hx) (fun h => ?_)
    have h2 := h.2.1
    simp only [needed] at h2
    omega
  rw [if_pos c7]
  simp only [except_bind_ok]
  rw [beBytes_drop]
  by_cases c8 : 1 ≤ b.length - (6 + 1 + 1 + 2 + 2 + 1 + 1 + 1)
  case neg =>
    rw [if_neg c8]
    refine iff_of_false (fun hx => Except.noConfusion hx) (fun h => ?_)
    have h2 := h.2.1
    simp only [needed] at h2
    omega
  rw [if_pos c8]
  simp only [except_bind_ok]
  rw [beBytes_drop]
  by_cases c9 : 8 ≤ b.length - (6 + 1 + 1 + 2 + 2 + 1 + 1 + 1 + 1)
  case neg =>
    rw [if_neg c9]
    refine iff_of_false (fun hx => Except.noConfusion hx) (fun h => ?_)
    have h2 := h.2.1
    simp only [needed] at h2
    omega
  rw [if_pos c9]
  simp only [except_bind_ok]
  rw [beBytes_drop]
  by_cases c10 : 1 ≤ b.length - (6 + 1 + 1 + 2 + 2 + 1 + 1 + 1 + 1 + 8)
  case neg =>
    rw [if_neg c10]
    refine iff_of_false (fun hx => Except.noConfusion hx) (fun h => ?_)
    have h2 := h.2.1
    simp only [needed] at h2
    omega
  rw [if_pos c10]
  simp only [except_bind_ok]
  rw [beBytes_drop]
  by_cases c11 : 1 ≤ b.length - (6 + 1 + 1 + 2 + 2 + 1 + 1 + 1 + 1 + 8 + 1)
  case neg =>
    rw [if_neg c11]
    refine iff_of_false (fun hx => Except.noConfusion hx) (fun h => ?_)
    have h2 := h.2.1
    simp only [needed] at h2
    omega
  rw [if_pos c11]
  simp only [except_bind_ok]
  rw [beBytes_drop]
  by_cases c12 : 1 ≤ b.length - (6 + 1 + 1 + 2 + 2 + 1 + 1 + 1 + 1 + 8 + 1 + 1)
  case neg =>
    rw [if_neg c12]
    refine iff_of_false (fun hx => Except.noConfusion hx) (fun h => ?_)
    have h2 := h.2.1
    simp only [needed] at h2
    omega
  rw [if_pos c12]
  simp only [except_bind_ok]
  rw [beBytes_drop]
  by_cases c13 : 1 ≤ b.length - (6 + 1 + 1 + 2 + 2 + 1 + 1 + 1 + 1 + 8 + 1 + 1 + 1)
  case neg =>
    rw [if_neg c13]
    refine iff_of_false (fun hx => Except.noConfusion hx) (fun h => ?_)
    have h2 := h.2.1
    simp only [needed] at h2
    omega
  rw [if_pos c13]
  simp only [except_bind_ok]
  rw [takeP_drop]
  by_cases c14 : 12 ≤ b.length - (6 + 1 + 1 + 2 + 2 + 1 + 1 + 1 + 1 + 8 + 1 + 1 + 1 + 1)
  case neg =>
    rw [if_neg c14]
    refine iff_of_false (fun hx => Except.noConfusion hx) (fun h => ?_)
    have h2 := h.2.1
    simp only [needed] at h2
    omega
  rw [if_pos c14]
  simp only [except_bind_ok]
  simp only [Nat.reduceAdd]
  rw [show bval ((b.drop 8).take 2) = signatureTypeCodeOf b from rfl]
  rw [show bval ((b.drop 10).take 2) = signatureLengthOf b from rfl]
  rw [show bval ((b.drop 13).take 1) = versionLengthOf b from rfl]
  rw [show bval ((b.drop 15).take 1) = signerIdLengthOf b from rfl]
  rw [show bval ((b.drop 16).take 8) = contentLengthOf b from rfl]
  rw [show bval ((b.drop 25).take 1) = fileTypeCodeOf b from rfl]
  rw [show bval ((b.drop 27).take 1) = contentTypeCodeOf b from rfl]
  rw [takeP_drop]
  by_cases c15 : versionLengthOf b ≤ b.length - 40
  case neg =>
    rw [if_neg c15]
    refine iff_of_false (fun hx => Except.noConfusion hx) (fun h => ?_)
    have h2 := h.2.1
    simp only [needed] at h2
    omega
  rw [if_pos c15]
  simp only [except_bind_ok]
  rw [takeP_drop]
  by_cases c16 : signerIdLengthOf b ≤ b.length - (40 + versionLengthOf b)
  case neg =>
    rw [if_neg c16]
    refine iff_of_false (fun hx => Except.noConfusion hx) (fun h => ?_)
    have h2 := h.2.1
    simp only [needed] at h2
    omega
  rw [if_pos c16]
  simp only [except_bind_ok]
  rw [takeP_drop]
  by_cases c17 : contentLengthOf b
      ≤ b.length - (40 + versionLengthOf b + signerIdLengthOf b)
  case neg =>
    rw [if_neg c17]
    refine iff_of_false (fun hx => Except.noConfusion hx) (fun h => ?_)
    have h2 := h.2.1
    simp only [needed] at h2
    omega
  rw [if_pos c17]
  simp only [except_bind_ok]
  rw [takeP_drop]
  by_cases c18 : signatureLengthOf b
      ≤ b.length - (40 + versionLengthOf b + signerIdLengthOf b
          + contentLengthOf b)
  case neg =>
    rw [if_neg c18]
    refine iff_of_false (fun hx => Except.noConfusion hx) (fun h => ?_)
    have h2 := h.2.1
    simp only [needed] at h2
    omega
  rw [if_pos c18]
  simp only [except_bind_ok]
  cases hst : SignatureType.tryFromNumber (signatureTypeCodeOf b) with
  | error e =>
    simp only [except_bind_error]
    exact iff_of_false (fun hx => Except.noConfusion hx)
      (fun h => Except.noConfusion h.2.2.1)
  | ok st =>
  simp only [except_bind_ok]
  cases hft : FileType.tryFromNumber (fileTypeCodeOf b) with
  | error e =>
    simp only [except_bind_error]
    exact iff_of_false (fun hx => Except.noConfusion hx)
      (fun h => Except.noConfusion h.2.2.2.1)
  | ok ft =>
  simp only [except_bind_ok]
  cases hct : ContentType.tryFromNumber (contentTypeCodeOf b) with
  | error e =>
    simp only [except_bind_error]
    exact iff_of_false (fun hx => Except.noConfusion hx)
      (fun h => Except.noConfusion h.2.2.2.2.1)
  | ok ct =>
  simp only [except_bind_ok]
  constructor
  · intro h
    simp only [Except.ok.injEq, Prod.mk.injEq, Su3.mk.injEq] at h
    obtain ⟨hrest, hst0, hft0, hct0, hv, hs, hc, hg⟩ := h
    subst hst0; subst hft0; subst hct0
    subst hv; subst hs; subst hc; subst hg; subst hrest
    refine ⟨h0, by simp only [needed]; omega, rfl, rfl, rfl,
      rfl, rfl, rfl, rfl, ?_⟩
    simp only [needed]
  · rintro ⟨-, -, hst2, hft2, hct2, hv, hs, hc, hg, hr⟩
    simp only [Except.ok.injEq] at hst2 hft2 hct2
    subst hst2; subst hft2; subst hct2
    subst hv; subst hs; subst hc; subst hg; subst hr
    simp only [needed]

theorem needed_ge (b : Bytes) : 40 ≤ needed b := by
  simp only [needed]
  omega

theorem deserialise_no_magic (b : Bytes) (h : ¬ b.take 6 = MAGIC_BYTES) :
    deserialise b = .error (.Error ⟨b, .Tag⟩) := by
  unfold deserialise
  rw [tagP_magic, if_neg h, except_bind_error]

theorem deserialise_short (b : Bytes) (hm : b.take 6 = MAGIC_BYTES)
    (hlt : b.length < needed b) :
    ∃ i : Bytes, deserialise b = .error (.Error ⟨i, .Eof⟩) := by
  unfold deserialise
  rw [tagP_magic, if_pos hm]
  simp only [except_bind_ok, be_u8, be_u16, be_u64]
  rw [beBytes_drop]
  by_cases c1 : 1 ≤ b.length - 6
  case neg =>
    rw [if_neg c1, except_bind_error]
    exact ⟨_, rfl⟩
  rw [if_pos c1]
  simp only [except_bind_ok]
  rw [beBytes_drop]
  by_cases c2 : 1 ≤ b.length - (6 + 1)
  case neg =>
    rw [if_neg c2, except_bind_error]
    exact ⟨_, rfl⟩
  rw [if_pos c2]
  simp only [except_bind_ok]
  rw [beBytes_drop]
  by_cases c3 : 2 ≤ b.length - (6 + 1 + 1)
  case neg =>
    rw [if_neg c3, except_bind_error]
    exact ⟨_, rfl⟩
  rw [if_pos c3]
  simp only [except_bind_ok]
  rw [beBytes_drop]
  by_cases c4 : 2 ≤ b.length - (6 + 1 + 1 + 2)
  case neg =>
    rw [if_neg c4, except_bind_error]
    exact ⟨_, rfl⟩
  rw [if_pos c4]
  simp only [except_bind_ok]
  rw [beBytes_drop]
  by_cases c5 : 1 ≤ b.length - (6 + 1 + 1 + 2 + 2)
  case neg =>
    rw [if_neg c5, except_bind_error]
    exact ⟨_, rfl⟩
  rw [if_pos c5]
  simp only [except_bind_ok]
  rw [beBytes_drop]
  by_cases c6 : 1 ≤ b.length - (6 + 1 + 1 + 2 + 2 + 1)
  case neg =>
    rw [if_neg c6, except_bind_error]
    exact ⟨_, rfl⟩
  rw [if_pos c6]
  simp only [except_bind_ok]
  rw [beBytes_drop]
  by_cases c7 : 1 ≤ b.length - (6 + 1 + 1 + 2 + 2 + 1 + 1)
  case neg =>
    rw [if_neg c7, except_bind_error]
    exact ⟨_, rfl⟩
  rw [if_pos c7]
  simp only [except_bind_ok]
  rw [beBytes_drop]
  by_cases c8 : 1 ≤ b.length - (6 + 1 + 1 + 2 + 2 + 1 + 1 + 1)
  case neg =>
    rw [if_neg c8, except_bind_error]
    exact ⟨_, rfl⟩
  rw [if_pos c8]
  simp only [except_bind_ok]
  rw [beBytes_drop]
  by_cases c9 : 8 ≤ b.length - (6 + 1 + 1 + 2 + 2 + 1 + 1 + 1 + 1)
  case neg =>
    rw [if_neg c9, except_bind_error]
    exact ⟨_, rfl⟩
  rw [if_pos c9]
  simp only [except_bind_ok]
  rw [beBytes_drop]
  by_cases c10 : 1 ≤ b.length - (6 + 1 + 1 + 2 + 2 + 1 + 1 + 1 + 1 + 8)
  case neg =>
    rw [if_neg c10, except_bind_error]
    exact ⟨_, rfl⟩
  rw [if_pos c10]
  simp only [except_bind_ok]
  rw [beBytes_drop]
  by_cases c11 : 1 ≤ b.length - (6 + 1 + 1 + 2 + 2 + 1 + 1 + 1 + 1 + 8 + 1)
  case neg =>
    rw [if_neg c11, except_bind_error]
    exact ⟨_, rfl⟩
  rw [if_pos c11]
  simp only [except_bind_ok]
  rw [beBytes_drop]
  by_cases c12 : 1 ≤ b.length - (6 + 1 + 1 + 2 + 2 + 1 + 1 + 1 + 1 + 8 + 1 + 1)
  case neg =>
    rw [if_neg c12, except_bind_error]
    exact ⟨_, rfl⟩
  rw [if_pos c12]
  simp only [except_bind_ok]
  rw [beBytes_drop]
  by_cases c13 : 1 ≤ b.length - (6 + 1 + 1 + 2 + 2 + 1 + 1 + 1 + 1 + 8 + 1 + 1 + 1)
  case neg =>
    rw [if_neg c13, except_bind_error]
    exact ⟨_, rfl⟩
  rw [if_pos c13]
  simp only [except_bind_ok]
  rw [takeP_drop]
  by_cases c14 : 12 ≤ b.length - (6 + 1 + 1 + 2 + 2 + 1 + 1 + 1 + 1 + 8 + 1 + 1 + 1 + 1)
  case neg =>
    rw [if_neg c14, except_bind_error]
    exact ⟨_, rfl⟩
  rw [if_pos c14]
  simp only [except_bind_ok]
  simp only [Nat.reduceAdd]
  rw [show bval ((b.drop 8).take 2) = signatureTypeCodeOf b from rfl]
  rw [show bval ((b.drop 10).take 2) = signatureLengthOf b from rfl]
  rw [show bval ((b.drop 13).take 1) = versionLengthOf b from rfl]
  rw [show bval ((b.drop 15).take 1) = signerIdLengthOf b from rfl]
  rw [show bval ((b.drop 16).take 8) = contentLengthOf b from rfl]
  rw [show bval ((b.drop 25).take 1) = fileTypeCodeOf b from rfl]
  rw [show bval ((b.drop 27).take 1) = contentTypeCodeOf b from rfl]
  rw [takeP_drop]
  by_cases c15 : versionLengthOf b ≤ b.length - 40
  case neg =>
    rw [if_neg c15, except_bind_error]
    exact ⟨_, rfl⟩
  rw [if_pos c15]
  simp only [except_bind_ok]
  rw [takeP_drop]
  by_cases c16 : signerIdLengthOf b ≤ b.length - (40 + versionLengthOf b)
  case neg =>
    rw [if_neg c16, except_bind_error]
    exact ⟨_, rfl⟩
  rw [if_pos c16]
  simp only [except_bind_ok]
  rw [takeP_drop]
  by_cases c17 : contentLengthOf b
      ≤ b.length - (40 + versionLengthOf b + signerIdLengthOf b)
  case neg =>
    rw [if_neg c17, except_bind_error]
    exact ⟨_, rfl⟩
  rw [if_pos c17]
  simp only [except_bind_ok]
  rw [takeP_drop]
  by_cases c18 : signatureLengthOf b
      ≤ b.length - (40 + versionLengthOf b + signerIdLengthOf b
          + contentLengthOf b)
  case neg =>
    rw [if_neg c18, except_bind_error]
    exact ⟨_, rfl⟩
  exfalso
  simp only [needed] at hlt
  omega

theorem stTryFromErrShape (n : Nat) (e : NomErr)
    (h : SignatureType.tryFromNumber n = .error e) :
    e = .Failure ⟨[], .Digit⟩ := by
  unfold SignatureType.tryFromNumber at h
  split at h <;> simp_all

theorem ftTryFromErrShape (n : Nat) (e : NomErr)
    (h : FileType.tryFromNumber n = .error e) :
    e = .Failure ⟨[], .Digit⟩ := by
  unfold FileType.tryFromNumber at h
  split at h <;> simp_all

theorem ctTryFromErrShape (n : Nat) (e : NomErr)
    (h : ContentType.tryFromNumber n = .error e) :
    e = .Failure ⟨[], .Digit⟩ := by
  unfold ContentType.tryFromNumber at h
  split at h <;> simp_all

theorem stTryFromToNum (s : SignatureType) :
    SignatureType.tryFromNumber s.toNum = .ok s := by
  cases s <;> rfl

theorem ftTryFromToNum (s : FileType) :
    FileType.tryFromNumber s.toNum = .ok s := by
  cases s <;> rfl

theorem ctTryFromToNum (s : ContentType) :
    ContentType.tryFromNumber s.toNum = .ok s := by
  cases s <;> rfl

theorem deserialise_digit (b : Bytes) (hm : b.take 6 = MAGIC_BYTES)
    (hn : needed b ≤ b.length)
    (hbad :
      (∃ e, SignatureType.tryFromNumber (signatureTypeCodeOf b) = .error e)
      ∨ (∃ e, FileType.tryFromNumber (fileTypeCodeOf b) = .error e)
      ∨ (∃ e, ContentType.tryFromNumber (contentTypeCodeOf b) = .error e)) :
    deserialise b = .error (.Failure ⟨[], .Digit⟩) := by
  have hn2 : 40 + versionLengthOf b + signerIdLengthOf b + contentLengthOf b
      + signatureLengthOf b ≤ b.length := by
    simpa only [needed] using hn
  unfold deserialise
  rw [tagP_magic, if_pos hm]
  simp only [except_bind_ok, be_u8, be_u16, be_u64]
  rw [beBytes_drop, if_pos (show (1:Nat) ≤ b.length - (6) by omega)]
  simp only [except_bind_ok]
  rw [beBytes_drop, if_pos (show (1:Nat) ≤ b.length - (6 + 1) by omega)]
  simp only [except_bind_ok]
  rw [beBytes_drop, if_pos (show (2:Nat) ≤ b.length - (6 + 1 + 1) by omega)]
  simp only [except_bind_ok]
  rw [beBytes_drop, if_pos (show (2:Nat) ≤ b.length - (6 + 1 + 1 + 2) by omega)]
  simp only [except_bind_ok]
  rw [beBytes_drop, if_pos (show (1:Nat) ≤ b.length - (6 + 1 + 1 + 2 + 2) by omega)]
  simp only [except_bind_ok]
  rw [beBytes_drop, if_pos (show (1:Nat) ≤ b.length - (6 + 1 + 1 + 2 + 2 + 1) by omega)]
  simp only [except_bind_ok]
  rw [beBytes_drop, if_pos (show (1:Nat) ≤ b.length - (6 + 1 + 1 + 2 + 2 + 1 + 1) by omega)]
  simp only [except_bind_ok]
  rw [beBytes_drop, if_pos (show (1:Nat) ≤ b.length - (6 + 1 + 1 + 2 + 2 + 1 + 1 + 1) by omega)]
  simp only [except_bind_ok]
  rw [beBytes_drop, if_pos (show (8:Nat) ≤ b.length - (6 + 1 + 1 + 2 + 2 + 1 + 1 + 1 + 1) by omega)]
  simp only [except_bind_ok]
  rw [beBytes_drop, if_pos (show (1:Nat) ≤ b.length - (6 + 1 + 1 + 2 + 2 + 1 + 1 + 1 + 1 + 8) by omega)]
  simp only [except_bind_ok]
  rw [beBytes_drop, if_pos (show (1:Nat) ≤ b.length - (6 + 1 + 1 + 2 + 2 + 1 + 1 + 1 + 1 + 8 + 1) by omega)]
  simp only [except_bind_ok]
  rw [beBytes_drop, if_pos (show (1:Nat) ≤ b.length - (6 + 1 + 1 + 2 + 2 + 1 + 1 + 1 + 1 + 8 + 1 + 1) by omega)]
  simp only [except_bind_ok]
  rw [beBytes_drop, if_pos (show (1:Nat) ≤ b.length - (6 + 1 + 1 + 2 + 2 + 1 + 1 + 1 + 1 + 8 + 1 + 1 + 1) by omega)]
  simp only [except_bind_ok]
  rw [takeP_drop, if_pos (show (12:Nat) ≤ b.length - (6 + 1 + 1 + 2 + 2 + 1 + 1 + 1 + 1 + 8 + 1 + 1 + 1 + 1) by omega)]
  simp only [except_bind_ok]
  simp only [Nat.reduceAdd]
  rw [show bval ((b.drop 8).take 2) = signatureTypeCodeOf b from rfl]
  rw [show bval ((b.drop 10).take 2) = signatureLengthOf b from rfl]
  rw [show bval ((b.drop 13).take 1) = versionLengthOf b from rfl]
  rw [show bval ((b.drop 15).take 1) = signerIdLengthOf b from rfl]
  rw [show bval ((b.drop 16).take 8) = contentLengthOf b from rfl]
  rw [show bval ((b.drop 25).take 1) = fileTypeCodeOf b from rfl]
  rw [show bval ((b.drop 27).take 1) = contentTypeCodeOf b from rfl]
  rw [takeP_drop, if_pos (show versionLengthOf b ≤ b.length - 40 by omega)]
  simp only [except_bind_ok]
  rw [takeP_drop, if_pos (show signerIdLengthOf b
    ≤ b.length - (40 + versionLengthOf b) by omega)]
  simp only [except_bind_ok]
  rw [takeP_drop, if_pos (show contentLengthOf b
    ≤ b.length - (40 + versionLengthOf b + signerIdLengthOf b) by omega)]
  simp only [except_bind_ok]
  rw [takeP_drop, if_pos (show signatureLengthOf b
    ≤ b.length - (40 + versionLengthOf b + signerIdLengthOf b
      + contentLengthOf b) by omega)]
  simp only [except_bind_ok]
  cases hst : SignatureType.tryFromNumber (signatureTypeCodeOf b) with
  | error e =>
    rw [except_bind_error, stTryFromErrShape _ _ hst]
  | ok st =>
  simp only [except_bind_ok]
  cases hft : FileType.tryFromNumber (fileTypeCodeOf b) with
  | error e =>
    rw [except_bind_error, ftTryFromErrShape _ _ hft]
  | ok ft =>
  simp only [except_bind_ok]
  cases hct : ContentType.tryFromNumber (contentTypeCodeOf b) with
  | error e =>
    rw [except_bind_error, ctTryFromErrShape _ _ hct]
  | ok ct =>
  exfalso
  rcases hbad with ⟨e, he⟩ | ⟨e, he⟩ | ⟨e, he⟩
  · rw [he] at hst; exact Except.noConfusion hst
  · rw [he] at hft; exact Except.noConfusion hft
  · rw [he] at hct; exact Except.noConfusion hct

theorem take6_mk (stc gl vl sl cl ftc ctc : Nat) (tail : Bytes) :
    (mkHeader stc gl vl sl cl ftc ctc ++ tail).take 6 = MAGIC_BYTES := rfl

theorem length_mk (stc gl vl sl cl ftc ctc : Nat) (tail : Bytes) :
    (mkHeader stc gl vl sl cl ftc ctc ++ tail).length = 40 + tail.length := by
  simp [mkHeader, MAGIC_BYTES, u16be, u64be]
  omega

theorem drop40_mk (stc gl vl sl cl ftc ctc : Nat) (tail : Bytes) :
    (mkHeader stc gl vl sl cl ftc ctc ++ tail).drop 40 = tail := rfl

theorem stcOf_mk (stc gl vl sl cl ftc ctc : Nat) (tail : Bytes) :
    signatureTypeCodeOf (mkHeader stc gl vl sl cl ftc ctc ++ tail)
      = stc % 65536 := by
  show (0 * 256 + stc / 256 % 256) * 256 + stc % 256 = stc % 65536
  omega

theorem glOf_mk (stc gl vl sl cl ftc ctc : Nat) (tail : Bytes) :
    signatureLengthOf (mkHeader stc gl vl sl cl ftc ctc ++ tail)
      = gl % 65536 := by
  show (0 * 256 + gl / 256 % 256) * 256 + gl % 256 = gl % 65536
  omega

theorem vlOf_mk (stc gl vl sl cl ftc ctc : Nat) (tail : Bytes) :
    versionLengthOf (mkHeader stc gl vl sl cl ftc ctc ++ tail) = vl := by
  show 0 * 256 + vl = vl
  omega

theorem slOf_mk (stc gl vl sl cl ftc ctc : Nat) (tail : Bytes) :
    signerIdLengthOf (mkHeader stc gl vl sl cl ftc ctc ++ tail) = sl := by
  show 0 * 256 + sl = sl
  omega

theorem clOf_mk (stc gl vl sl cl ftc ctc : Nat) (tail : Bytes) :
    contentLengthOf (mkHeader stc gl vl sl cl ftc ctc ++ tail)
      = cl % 2 ^ 64 := by
  show (((((((0 * 256 + cl / 256 ^ 7 % 256) * 256 + cl / 256 ^ 6 % 256) * 256
    + cl / 256 ^ 5 % 256) * 256 + cl / 256 ^ 4 % 256) * 256
    + cl / 256 ^ 3 % 256) * 256 + cl / 256 ^ 2 % 256) * 256
    + cl / 256 % 256) * 256 + cl % 256 = cl % 2 ^ 64
  omega

theorem ftcOf_mk (stc gl vl sl cl ftc ctc : Nat) (tail : Bytes) :
    fileTypeCodeOf (mkHeader stc gl vl sl cl ftc ctc ++ tail) = ftc := by
  show 0 * 256 + ftc = ftc
  omega

theorem ctcOf_mk (stc gl vl sl cl ftc ctc : Nat) (tail : Bytes) :
    contentTypeCodeOf (mkHeader stc gl vl sl cl ftc ctc ++ tail) = ctc := by
  show 0 * 256 + ctc = ctc
  omega

theorem needed_mk (stc gl vl sl cl ftc ctc : Nat) (tail : Bytes) :
    needed (mkHeader stc gl vl sl cl ftc ctc ++ tail)
      = 40 + vl + sl + cl % 2 ^ 64 + gl % 65536 := by
  rw [needed, vlOf_mk, slOf_mk, clOf_mk, glOf_mk]

theorem u64be_mod (v : Nat) : u64be (v % 2 ^ 64) = u64be v := by
  simp only [u64be, List.cons.injEq, and_true]
  omega

theorem SignatureType.toNum_mod (s : SignatureType) :
    s.toNum % 65536 = s.toNum := by
  cases s <;> rfl

theorem SignatureType.length_mod (s : SignatureType) :
    SignatureType.length s % 65536 = SignatureType.length s := by
  cases s <;> rfl

theorem su3Body_eq_mk (su3 : Su3) :
    su3Body su3 = mkHeader su3.signature_type.toNum su3.signature_type.length
      (su3.raw_version.length % 256) (su3.raw_signer_id.length % 256)
      su3.raw_content.length su3.file_type.toNum su3.content_type.toNum
      ++ (su3.raw_version ++ (su3.raw_signer_id
        ++ (su3.raw_content ++ su3.raw_signature))) := by
  simp only [su3Body, mkHeader, u64be_mod, List.append_assoc]

theorem su3Body_decode (su3 : Su3)
    (hv : su3.raw_version.length ≤ 255)
    (hs : su3.raw_signer_id.length ≤ 255)
    (hc : su3.raw_content.length < 2 ^ 64)
    (hg : su3.raw_signature.length = su3.signature_type.length) :
    deserialise (su3Body su3) = .ok ([], su3) := by
  rw [su3Body_eq_mk, deserialise_ok_iff]
  have m1 : su3.raw_version.length % 256 = su3.raw_version.length :=
    Nat.mod_eq_of_lt (by omega)
  have m2 : su3.raw_signer_id.length % 256 = su3.raw_signer_id.length :=
    Nat.mod_eq_of_lt (by omega)
  have m3 : su3.raw_content.length % 2 ^ 64 = su3.raw_content.length :=
    Nat.mod_eq_of_lt hc
  simp only [take6_mk, needed_mk, length_mk, stcOf_mk, glOf_mk, vlOf_mk,
    slOf_mk, clOf_mk, ftcOf_mk, ctcOf_mk, m1, m2, m3,
    SignatureType.toNum_mod, SignatureType.length_mod,
    stTryFromToNum, ftTryFromToNum,
    ctTryFromToNum, ← List.drop_drop, drop40_mk,
    List.drop_left, List.take_left, true_and, and_true]
  refine ⟨?_, ?_, ?_⟩
  · simp only [List.length_append]
    omega
  · rw [← hg]
    exact (List.take_length _).symm
  · rw [← hg]
    exact (List.drop_length _).symm

theorem getq_eq (b1 b2 : Bytes) (hlen : b1.length = b2.length)
    (hag : ∀ i, ¬ unusedOffset i → b1.getD i 0 = b2.getD i 0) :
    ∀ i, ¬ unusedOffset i → b1[i]? = b2[i]? := by
  intro i hi
  by_cases hlt : i < b1.length
  · have h2 : i < b2.length := by omega
    have hv := hag i hi
    rw [List.getD_eq_getElem?_getD, List.getD_eq_getElem?_getD,
      List.getElem?_eq_getElem hlt, List.getElem?_eq_getElem h2] at hv
    rw [List.getElem?_eq_getElem hlt, List.getElem?_eq_getElem h2]
    simpa using hv
  · rw [List.getElem?_eq_none (by omega), List.getElem?_eq_none (by omega)]

theorem seg_eq (b1 b2 : Bytes)
    (hq : ∀ i, ¬ unusedOffset i → b1[i]? = b2[i]?) (k n : Nat)
    (hnu : ∀ j, j < n → ¬ unusedOffset (k + j)) :
    (b1.drop k).take n = (b2.drop k).take n := by
  apply List.ext_getElem?
  intro j
  by_cases hj : j < n
  · rw [List.getElem?_take_of_lt hj, List.getElem?_take_of_lt hj,
      List.getElem?_drop, List.getElem?_drop]
    exact hq (k + j) (hnu j hj)
  · rw [List.getElem?_eq_none (by simp [List.length_take]; omega),
      List.getElem?_eq_none (by simp [List.length_take]; omega)]

theorem drop40_eq (b1 b2 : Bytes)
    (hq : ∀ i, ¬ unusedOffset i → b1[i]? = b2[i]?) :
    b1.drop 40 = b2.drop 40 := by
  apply List.ext_getElem?
  intro j
  rw [List.getElem?_drop, List.getElem?_drop]
  apply hq
  simp only [unusedOffset]
  omega

theorem deserialise_transfer (b1 b2 : Bytes) (hlen : b1.length = b2.length)
    (hag : ∀ i, ¬ unusedOffset i → b1.getD i 0 = b2.getD i 0)
    (r : Bytes) (s : Su3) (h : deserialise b1 = .ok (r, s)) :
    deserialise b2 = .ok (b2.drop (needed b2), s) ∧
      r = b1.drop (needed b1) ∧ needed b1 = needed b2 := by
  obtain ⟨hm, hn, hst, hft, hct, hv, hs2, hc2, hg2, hr⟩ :=
    (deserialise_ok_iff b1 r s).mp h
  have hq := getq_eq b1 b2 hlen hag
  have e6 : b1.take 6 = b2.take 6 := by
    have := seg_eq b1 b2 hq 0 6 (by intro j hj; simp only [unusedOffset]; omega)
    simpa using this
  have estc : signatureTypeCodeOf b1 = signatureTypeCodeOf b2 :=
    congrArg bval (seg_eq b1 b2 hq 8 2 (by intro j hj; simp only [unusedOffset]; omega))
  have egl : signatureLengthOf b1 = signatureLengthOf b2 :=
    congrArg bval (seg_eq b1 b2 hq 10 2 (by intro j hj; simp only [unusedOffset]; omega))
  have evl : versionLengthOf b1 = versionLengthOf b2 :=
    congrArg bval (seg_eq b1 b2 hq 13 1 (by intro j hj; simp only [unusedOffset]; omega))
  have esl : signerIdLengthOf b1 = signerIdLengthOf b2 :=
    congrArg bval (seg_eq b1 b2 hq 15 1 (by intro j hj; simp only [unusedOffset]; omega))
  have ecl : contentLengthOf b1 = contentLengthOf b2 :=
    congrArg bval (seg_eq b1 b2 hq 16 8 (by intro j hj; simp only [unusedOffset]; omega))
  have eftc : fileTypeCodeOf b1 = fileTypeCodeOf b2 :=
    congrArg bval (seg_eq b1 b2 hq 25 1 (by intro j hj; simp only [unusedOffset]; omega))
  have ectc : contentTypeCodeOf b1 = contentTypeCodeOf b2 :=
    congrArg bval (seg_eq b1 b2 hq 27 1 (by intro j hj; simp only [unusedOffset]; omega))
  have e40 : b1.drop 40 = b2.drop 40 := drop40_eq b1 b2 hq
  have eneeded : needed b1 = needed b2 := by
    simp only [needed, evl, esl, ecl, egl]
  refine ⟨(deserialise_ok_iff b2 _ s).mpr
    ⟨?_, ?_, ?_, ?_, ?_, ?_, ?_, ?_, ?_, rfl⟩, hr, eneeded⟩
  · rw [← e6]; exact hm
  · rw [← eneeded, ← hlen]; exact hn
  · rw [← estc]; exact hst
  · rw [← eftc]; exact hft
  · rw [← ectc]; exact hct
  · rw [← e40, ← evl]; exact hv
  · rw [← esl, ← evl, ← List.drop_drop, ← e40, List.drop_drop]; exact hs2
  · rw [← ecl, ← esl, ← evl, ← List.drop_drop, ← List.drop_drop, ← e40,
      List.drop_drop, List.drop_drop,
      show 40 + (versionLengthOf b1 + signerIdLengthOf b1)
        = 40 + versionLengthOf b1 + signerIdLengthOf b1 from by omega]
    exact hc2
  · rw [← egl, ← ecl, ← esl, ← evl, ← List.drop_drop, ← List.drop_drop,
      ← List.drop_drop, ← e40, List.drop_drop, List.drop_drop,
      List.drop_drop,
      show 40 + (versionLengthOf b1 + (signerIdLengthOf b1
          + contentLengthOf b1))
        = 40 + versionLengthOf b1 + signerIdLengthOf b1 + contentLengthOf b1
        from by omega]
    exact hg2

theorem seg_take (b : Bytes) (m k n : Nat) (hkn : k + n ≤ 40)
    (h40 : 40 ≤ m) :
    ((b.take m).drop k).take n = (b.drop k).take n := by
  rw [List.drop_take, List.take_take, Nat.min_eq_left (by omega)]

theorem needed_take (b : Bytes) (m : Nat) (h40 : 40 ≤ m) :
    needed (b.take m) = needed b := by
  simp only [needed, versionLengthOf, signerIdLengthOf, contentLengthOf,
    signatureLengthOf]
  rw [seg_take b m 13 1 (by omega) h40, seg_take b m 15 1 (by omega) h40,
    seg_take b m 16 8 (by omega) h40, seg_take b m 10 2 (by omega) h40]

theorem su3Body_needed (su3 : Su3)
    (hv : su3.raw_version.length ≤ 255)
    (hs : su3.raw_signer_id.length ≤ 255)
    (hc : su3.raw_content.length < 2 ^ 64)
    (hg : su3.raw_signature.length = su3.signature_type.length) :
    needed (su3Body su3) = (su3Body su3).length := by
  rw [su3Body_eq_mk, needed_mk, length_mk]
  have hm1 : su3.signature_type.length % 65536 = su3.signature_type.length :=
    SignatureType.length_mod _
  simp only [List.length_append]
  omega

/-- C1 counterexample: a package with the minimum 16 byte version but an
empty signature region encodes successfully, yet decoding the encoded
bytes fails with an insufficient data error instead of returning the
package, because the decoder takes the canonical table length announced
in the header rather than the stored signature length. -/
theorem C1_counterexample :
    16 ≤ mismatchSu3.raw_version.length ∧
    serialise mismatchSu3 [] = (su3Body mismatchSu3, none) ∧
    deserialise (su3Body mismatchSu3) = .error (.Error ⟨[], .Eof⟩) :=
  ⟨by decide, by decide, by decide⟩

/-- C1 amended: the round trip decode of encode yields exactly the package
and an empty leftover once the fields also fit their wire encodings:
version and signer id lengths at most 255, content length below 2 pow 64,
and the signature region exactly as long as the canonical table value of
the declared signature algorithm. -/
theorem C1_round_trip (su3 : Su3)
    (h16 : 16 ≤ su3.raw_version.length)
    (hv : su3.raw_version.length ≤ 255)
    (hs : su3.raw_signer_id.length ≤ 255)
    (hc : su3.raw_content.length < 2 ^ 64)
    (hg : su3.raw_signature.length = su3.signature_type.length) :
    serialise su3 [] = (su3Body su3, none) ∧
    deserialise (su3Body su3) = .ok ([], su3) := by
  refine ⟨?_, su3Body_decode su3 hv hs hc hg⟩
  simp [serialise, Nat.not_lt.mpr h16]

theorem C1_witness :
    serialise sampleSu3 [] = (su3Body sampleSu3, none) ∧
    deserialise (su3Body sampleSu3) = .ok ([], sampleSu3) :=
  C1_round_trip sampleSu3 (by decide) (by decide) (by decide) (by decide)
    (by decide)

/-- C2: whenever the encoder runs (the only precondition it checks is the
version length), it succeeds, and the two bytes it writes at offset 10 are
the big endian encoding of the canonical table value for the declared
signature algorithm; the stored signature byte count is never consulted
and no mismatch check is performed. -/
theorem C2_signature_length_field (su3 : Su3) (ctx : Bytes)
    (h : 16 ≤ su3.raw_version.length) :
    serialise su3 ctx = (ctx ++ su3Body su3, none) ∧
    ((su3Body su3).drop 10).take 2 = u16be su3.signature_type.length ∧
    signatureLengthOf (su3Body su3) = su3.signature_type.length := by
  refine ⟨by simp [serialise, Nat.not_lt.mpr h], rfl, ?_⟩
  rw [su3Body_eq_mk, glOf_mk, SignatureType.length_mod]

theorem C2_witness :
    mismatchSu3.raw_signature.length ≠ mismatchSu3.signature_type.length ∧
    (serialise mismatchSu3 [] = ([] ++ su3Body mismatchSu3, none) ∧
     ((su3Body mismatchSu3).drop 10).take 2
       = u16be mismatchSu3.signature_type.length ∧
     signatureLengthOf (su3Body mismatchSu3)
       = mismatchSu3.signature_type.length) :=
  ⟨by decide, C2_signature_length_field mismatchSu3 [] (by decide)⟩

/-- C3: the decoder does not enforce the minimum of 16 on the version
length field: a buffer that is well formed except that its version length
header byte is below 16 still parses into a package whose version region
is shorter than 16 bytes, with no decode error. -/
theorem C3_short_version_parsed (su3 : Su3)
    (h : su3.raw_version.length < 16)
    (hs : su3.raw_signer_id.length ≤ 255)
    (hc : su3.raw_content.length < 2 ^ 64)
    (hg : su3.raw_signature.length = su3.signature_type.length) :
    versionLengthOf (su3Body su3) < 16 ∧
    deserialise (su3Body su3) = .ok ([], su3) ∧
    su3.raw_version.length < 16 := by
  have hv : su3.raw_version.length ≤ 255 := by omega
  have he : versionLengthOf (su3Body su3) = su3.raw_version.length := by
    rw [su3Body_eq_mk, vlOf_mk]
    exact Nat.mod_eq_of_lt (by omega)
  exact ⟨by omega, su3Body_decode su3 hv hs hc hg, h⟩

theorem C3_witness :
    versionLengthOf (su3Body shortVersionSu3) < 16 ∧
    deserialise (su3Body shortVersionSu3) = .ok ([], shortVersionSu3) ∧
    shortVersionSu3.raw_version.length < 16 :=
  C3_short_version_parsed shortVersionSu3 (by decide) (by decide)
    (by decide) (by decide)

/-- C4 counterexample: truncating a valid encoded buffer to 3 bytes ends
inside the 40 byte fixed header, yet decode fails with the Tag error kind,
the kind the magic matcher produces, not with an insufficient data error;
the nom error also carries only the remaining input and no required
length. -/
theorem C4_counterexample :
    ((su3Body sampleSu3).take 3).length < 40 ∧
    deserialise ((su3Body sampleSu3).take 3)
      = .error (.Error ⟨(su3Body sampleSu3).take 3, .Tag⟩) ∧
    resultKind (deserialise ((su3Body sampleSu3).take 3))
      ≠ some ErrorKind.Eof :=
  ⟨by decide, by decide, by decide⟩

/-- C4 amended: truncating a valid encoded buffer anywhere strictly inside
it fails; a truncation that ends at or after the 6 byte magic, whether
inside the fixed header or inside any of the variable take regions, fails
with the Eof kind, the nom insufficient data kind, which carries the
remaining input rather than a required count, while a truncation ending
inside the magic fails with the Tag kind. -/
theorem C4_truncated (su3 : Su3)
    (hv : su3.raw_version.length ≤ 255)
    (hs : su3.raw_signer_id.length ≤ 255)
    (hc : su3.raw_content.length < 2 ^ 64)
    (hg : su3.raw_signature.length = su3.signature_type.length)
    (m : Nat) (hm : m < (su3Body su3).length) :
    resultKind (deserialise ((su3Body su3).take m))
      = some (if m < 6 then ErrorKind.Tag else ErrorKind.Eof) := by
  have hneed : needed (su3Body su3) = (su3Body su3).length :=
    su3Body_needed su3 hv hs hc hg
  by_cases h6 : m < 6
  · rw [if_pos h6]
    have hne : ¬ ((su3Body su3).take m).take 6 = MAGIC_BYTES := by
      intro heq
      have hl := congrArg List.length heq
      simp only [List.length_take, MAGIC_BYTES, List.length_cons,
        List.length_nil] at hl
      omega
    rw [deserialise_no_magic _ hne]
    rfl
  · rw [if_neg h6]
    have hmag : ((su3Body su3).take m).take 6 = MAGIC_BYTES := by
      rw [List.take_take, Nat.min_eq_left (by omega), su3Body_eq_mk]
      exact take6_mk _ _ _ _ _ _ _ _
    have hlt : ((su3Body su3).take m).length
        < needed ((su3Body su3).take m) := by
      rw [List.length_take, Nat.min_eq_left (le_of_lt hm)]
      by_cases h40 : m < 40
      · have := needed_ge ((su3Body su3).take m)
        omega
      · rw [needed_take _ _ (by omega)]
        omega
    obtain ⟨i, hi⟩ := deserialise_short _ hmag hlt
    rw [hi]
    rfl

theorem C4_witness :
    resultKind (deserialise ((su3Body sampleSu3).take 20))
      = some ErrorKind.Eof :=
  (C4_truncated sampleSu3 (by decide) (by decide) (by decide) (by decide)
    20 (by decide)).trans (by decide)

theorem mkRaw_eq_mk (stc ftc ctc : Nat) (v sid cont sig : Bytes) :
    mkRaw stc ftc ctc v sid cont sig
      = mkHeader stc sig.length (v.length % 256) (sid.length % 256)
          cont.length (ftc % 256) (ctc % 256)
        ++ (v ++ (sid ++ (cont ++ sig))) := by
  simp only [mkRaw, mkHeader, u64be_mod, List.append_assoc]

/-- C5: a buffer that is well formed except that one of the three enum
code fields holds a code outside its closed set fails to decode with the
hard unknown code failure the try_from_number conversions produce; no
package with a preserved unknown code is ever constructed. -/
theorem C5_unknown_enum_code (stc ftc ctc : Nat) (v sid cont sig : Bytes)
    (hstc : stc < 65536) (hftc : ftc < 256) (hctc : ctc < 256)
    (hv : v.length ≤ 255) (hs : sid.length ≤ 255)
    (hc : cont.length < 2 ^ 64) (hsg : sig.length ≤ 65535)
    (hbad : (∃ e, SignatureType.tryFromNumber stc = .error e) ∨
            (∃ e, FileType.tryFromNumber ftc = .error e) ∨
            (∃ e, ContentType.tryFromNumber ctc = .error e)) :
    deserialise (mkRaw stc ftc ctc v sid cont sig)
      = .error (.Failure ⟨[], .Digit⟩) := by
  rw [mkRaw_eq_mk]
  apply deserialise_digit
  · exact take6_mk _ _ _ _ _ _ _ _
  · rw [needed_mk, length_mk]
    simp only [List.length_append]
    omega
  · rw [stcOf_mk, ftcOf_mk, ctcOf_mk, Nat.mod_eq_of_lt hstc,
      Nat.mod_eq_of_lt hftc, Nat.mod_eq_of_lt hctc]
    exact hbad

theorem C5_witness :
    deserialise (mkRaw 0 255 0 (List.replicate 16 0) [] [] [])
      = .error (.Failure ⟨[], .Digit⟩) :=
  C5_unknown_enum_code 0 255 0 (List.replicate 16 0) [] [] []
    (by decide) (by decide) (by decide) (by decide) (by decide) (by decide)
    (by decide)
    (Or.inr (Or.inl ⟨.Failure ⟨[], .Digit⟩, by decide⟩))

/-- C6: on a package whose version region is shorter than 16 bytes the
serialiser fails with the length validation error CustomError 1, and the
output sink is returned exactly as it was, with nothing written. -/
theorem C6_short_version_no_write (su3 : Su3) (ctx : Bytes)
    (h : su3.raw_version.length < 16) :
    serialise su3 ctx = (ctx, some (GenError.CustomError 1)) := by
  simp [serialise, h]

theorem C6_witness :
    shortVersionSu3.raw_version.length < 16 ∧
    serialise shortVersionSu3 [5, 6] = ([5, 6], some (GenError.CustomError 1)) :=
  ⟨by decide, C6_short_version_no_write shortVersionSu3 [5, 6] (by decide)⟩

/-- C7: the signature length lookup is a pure function returning exactly
the table constants, and calling it twice on the same variant yields the
same value. -/
theorem C7_signature_length_table :
    SignatureType.length .DsaSha1 = 40 ∧
    SignatureType.length .EcdsaSha256P256 = 64 ∧
    SignatureType.length .EddsaSha512Ed25519ph = 64 ∧
    SignatureType.length .EcdsaSha384P384 = 96 ∧
    SignatureType.length .EcdsaSha512P521 = 132 ∧
    SignatureType.length .RsaSha2562048 = 256 ∧
    SignatureType.length .RsaSha3843072 = 384 ∧
    SignatureType.length .RsaSha5124096 = 512 ∧
    ∀ s : SignatureType, SignatureType.length s = SignatureType.length s :=
  ⟨rfl, rfl, rfl, rfl, rfl, rfl, rfl, rfl, fun _ => rfl⟩

/-- C8: two buffers of equal length that agree everywhere except possibly
at the unused header offsets decode alike: both fail or both succeed, and
on success they produce equal packages and leftovers of equal length. -/
theorem C8_unused_bytes_ignored (b1 b2 : Bytes)
    (hlen : b1.length = b2.length)
    (hag : ∀ i, ¬ unusedOffset i → b1.getD i 0 = b2.getD i 0) :
    ((∃ r s, deserialise b1 = .ok (r, s))
      ↔ (∃ r s, deserialise b2 = .ok (r, s))) ∧
    (∀ r1 s1 r2 s2, deserialise b1 = .ok (r1, s1)
      → deserialise b2 = .ok (r2, s2)
      → s1 = s2 ∧ r1.length = r2.length) := by
  constructor
  · constructor
    · rintro ⟨r, s, h⟩
      exact ⟨_, s, (deserialise_transfer b1 b2 hlen hag r s h).1⟩
    · rintro ⟨r, s, h⟩
      exact ⟨_, s, (deserialise_transfer b2 b1 hlen.symm
        (fun i hi => (hag i hi).symm) r s h).1⟩
  · intro r1 s1 r2 s2 h1 h2
    obtain ⟨hb2, hr1, hne⟩ := deserialise_transfer b1 b2 hlen hag r1 s1 h1
    rw [h2] at hb2
    simp only [Except.ok.injEq, Prod.mk.injEq] at hb2
    obtain ⟨hre, hse⟩ := hb2
    refine ⟨hse.symm, ?_⟩
    rw [hr1, hre]
    simp only [List.length_drop]
    omega

theorem C8_witness :
    ((∃ r s, deserialise minimalBuf = .ok (r, s))
      ↔ (∃ r s, deserialise unusedVariantBuf = .ok (r, s))) ∧
    (∀ r1 s1 r2 s2, deserialise minimalBuf = .ok (r1, s1)
      → deserialise unusedVariantBuf = .ok (r2, s2)
      → s1 = s2 ∧ r1.length = r2.length) :=
  C8_unused_bytes_ignored minimalBuf unusedVariantBuf (by decide)
    (fun i hi => by
      by_cases h40 : i < 40
      · interval_cases i <;>
          first
            | decide
            | exact absurd (by simp [unusedOffset]) hi
      · have l1 : minimalBuf.length ≤ i := by
          have : minimalBuf.length = 40 := rfl
          omega
        have l2 : unusedVariantBuf.length ≤ i := by
          have : unusedVariantBuf.length = 40 := rfl
          omega
        rw [List.getD_eq_getElem?_getD, List.getD_eq_getElem?_getD,
          List.getElem?_eq_none l1, List.getElem?_eq_none l2])

/-- C9: every successful parse consumes exactly the 40 byte header plus
the four region lengths announced by the header fields of the very same
buffer, the leftover is exactly the suffix after those bytes, and the four
stored regions have exactly the announced lengths. -/
theorem C9_exact_consumption (data rest : Bytes) (su3 : Su3)
    (h : deserialise data = .ok (rest, su3)) :
    su3.raw_version.length = versionLengthOf data ∧
    su3.raw_signer_id.length = signerIdLengthOf data ∧
    su3.raw_content.length = contentLengthOf data ∧
    su3.raw_signature.length = signatureLengthOf data ∧
    needed data = 40 + versionLengthOf data + signerIdLengthOf data
      + contentLengthOf data + signatureLengthOf data ∧
    rest = data.drop (needed data) := by
  obtain ⟨hm, hn, hst, hft, hct, hv, hs, hc, hg, hr⟩ :=
    (deserialise_ok_iff data rest su3).mp h
  have hn2 : 40 + versionLengthOf data + signerIdLengthOf data
      + contentLengthOf data + signatureLengthOf data ≤ data.length := by
    simpa only [needed] using hn
  refine ⟨?_, ?_, ?_, ?_, rfl, hr⟩
  · rw [hv, List.length_take, List.length_drop]; omega
  · rw [hs, List.length_take, List.length_drop]; omega
  · rw [hc, List.length_take, List.length_drop]; omega
  · rw [hg, List.length_take, List.length_drop]; omega

theorem C9_witness :
    (⟨.DsaSha1, .Zip, .Unknown, [], [], [], []⟩
        : Su3).raw_version.length = versionLengthOf minimalBuf ∧
    (⟨.DsaSha1, .Zip, .Unknown, [], [], [], []⟩
        : Su3).raw_signer_id.length = signerIdLengthOf minimalBuf ∧
    (⟨.DsaSha1, .Zip, .Unknown, [], [], [], []⟩
        : Su3).raw_content.length = contentLengthOf minimalBuf ∧
    (⟨.DsaSha1, .Zip, .Unknown, [], [], [], []⟩
        : Su3).raw_signature.length = signatureLengthOf minimalBuf ∧
    needed minimalBuf = 40 + versionLengthOf minimalBuf
      + signerIdLengthOf minimalBuf + contentLengthOf minimalBuf
      + signatureLengthOf minimalBuf ∧
    ([] : Bytes) = minimalBuf.drop (needed minimalBuf) :=
  C9_exact_consumption minimalBuf []
    ⟨.DsaSha1, .Zip, .Unknown, [], [], [], []⟩ (by decide)

/-- C10: for every file type other than TxtGz and XmlGz the accessor
returns the stored content unchanged as a borrowed view, without calling
the decompression collaborator; only TxtGz and XmlGz take the gzip
branch. -/
theorem C10_no_decompression {ε : Type} (gunzip : Bytes → Except ε Bytes)
    (su3 : Su3) (h1 : su3.file_type ≠ .TxtGz) (h2 : su3.file_type ≠ .XmlGz) :
    decompressed_content gunzip su3 = .ok (.Borrowed su3.raw_content) := by
  cases hft : su3.file_type <;>
    simp_all [decompressed_content]

theorem C10_witness :
    decompressed_content (fun _ => (Except.error 0 : Except Nat Bytes))
      sampleSu3 = .ok (.Borrowed sampleSu3.raw_content) :=
  C10_no_decompression (fun _ => (Except.error 0 : Except Nat Bytes))
    sampleSu3 (by decide) (by decide)
